import Mathlib

/-!
Verification of the browserNerd MCP stdio smoke client
(`src/mcp-server/scripts/mcp_smoke.py`) and the two eval conversation drivers
(`src/eval/conversation.py`, `src/evalGemini/conversation.py`), together with
the tool-bridge adaptation (`src/eval/mcp_client.py`) and the metrics rollup
(`src/eval/metrics.py`, `src/evalGemini/metrics.py`).

The Python sources are shallowly embedded: pure fragments become Lean
functions, the stateful RPC client becomes explicit state passing, and the
external collaborators (the child process, the model backends, the MCP SDK
session) become oracle parameters describing what they return or raise.
-/

namespace Smoke

/-- A JSON-RPC protocol-level error object, as carried verbatim by `RpcError`
(`mcp_smoke.py` line 29). The payload is kept opaque. -/
structure ErrObj where
  code : Int
  message : String
deriving DecidableEq

/-- One parsed response message as `request` inspects it: the optional
`"error"` member and the optional `"result"` member (`resp.get("result")`). -/
structure RespMsg where
  error : Option ErrObj
  result : Option String
deriving DecidableEq

/-- What `McpStdioClient._read_stdout` observes about one line of the child's
stdout after `line.strip()` and `json.loads`: a blank line, a line that fails
to parse as JSON, a parsed message without an `"id"` (a notification), a
parsed message whose `"id"` is not an integer, or a response with an integer
id. -/
inductive StdoutLine
  | blank
  | malformed (text : String)
  | notification (payload : String)
  | nonIntId (payload : String)
  | response (id : Nat) (msg : RespMsg)
deriving DecidableEq

/-- A line the reader loop drops without delivering anything. -/
def StdoutLine.isNoise : StdoutLine → Bool
  | StdoutLine.response _ _ => false
  | _ => true

/-- The delivery behaviour of `McpStdioClient._read_stdout` (lines 69-99):
fold over the lines observed on stdout, delivering each response whose id is
registered in the correlation table and dropping everything else. The
correlation table is held fixed for the fold, as in the interleaving scenario
the spec describes. End of input models end-of-stream. -/
def readStdout (table : List Nat) : List StdoutLine → List (Nat × RespMsg)
  | [] => []
  | StdoutLine.response i m :: rest =>
      if i ∈ table then (i, m) :: readStdout table rest else readStdout table rest
  | StdoutLine.blank :: rest => readStdout table rest
  | StdoutLine.malformed _ :: rest => readStdout table rest
  | StdoutLine.notification _ :: rest => readStdout table rest
  | StdoutLine.nonIntId _ :: rest => readStdout table rest

/-- The client state one `McpStdioClient.request` call reads and writes: the
next request id, the registered pending ids (keys of `_resp_by_id`), the
result of `self._proc.poll()` as observed at entry by `_ensure_running`, and
the queue of stderr lines captured so far by `_read_stderr`. -/
structure ClientState where
  nextId : Nat
  table : List Nat
  pollAtEntry : Option Int
  stderrQueue : List String
deriving DecidableEq

/-- What the environment does while `request` blocks on `q.get(timeout_s)`:
either the reader thread delivers a response, or the timeout fires
(`queue.Empty` is raised), in which case `poll()` is consulted a second time
by the `_ensure_running` call inside the `except` handler. -/
inductive WaitOutcome
  | delivered (msg : RespMsg)
  | timedOut (pollLater : Option Int)
deriving DecidableEq

/-- The exit of one `request` call, mirroring the return / raised exceptions:
normal return of `resp.get("result")`, `RpcError`, `TimeoutError`, or the
`RuntimeError` raised by `_ensure_running` for an exited process (the spec's
`ProcessExitedError`), carrying the drained stderr lines. -/
inductive RequestOutcome
  | ok (result : Option String)
  | rpcError (error : ErrObj)
  | timeout (message : String)
  | processExited (code : Int) (stderrTail : List String)
deriving DecidableEq

/-- The stderr drain of `McpStdioClient._ensure_running` (lines 112-118):
`get_nowait` pops the queue front-first, stopping after 50 lines, so the
collected lines are the first (oldest) at most 50 lines still queued.
Returns the drained lines and the remaining queue. -/
def drainStderrTail (q : List String) : List String × List String :=
  (q.take 50, q.drop 50)

/-- The `TimeoutError` message built at `mcp_smoke.py` line 153. -/
def timeoutMessage (method : String) (id : Nat) : String :=
  "Timed out waiting for response to " ++ method ++ " (id=" ++ toString id ++ ")"

/-- Deregistration performed by the `finally` block at lines 158-160:
`self._resp_by_id.pop(req_id, None)`. -/
def deregister (st : ClientState) (reqId : Nat) : ClientState :=
  { st with table := st.table.erase reqId }

/-- `McpStdioClient.request` (lines 131-160): check the process is running,
allocate the next sequential id, register it in the correlation table, send
the framed request, block until the reader delivers a response or the timeout
fires, and pop the registration in the `finally` block on every path after
registration. Returns the outcome together with the state after the call. -/
def request (s : ClientState) (method : String) (w : WaitOutcome) :
    RequestOutcome × ClientState :=
  match s.pollAtEntry with
  | some rc =>
      let d := drainStderrTail s.stderrQueue
      (RequestOutcome.processExited rc d.1, { s with stderrQueue := d.2 })
  | none =>
      let reqId := s.nextId
      let s1 : ClientState :=
        { s with nextId := s.nextId + 1, table := s.table ++ [reqId] }
      match w with
      | WaitOutcome.delivered msg =>
          match msg.error with
          | some e => (RequestOutcome.rpcError e, deregister s1 reqId)
          | none => (RequestOutcome.ok msg.result, deregister s1 reqId)
      | WaitOutcome.timedOut pollLater =>
          match pollLater with
          | some rc =>
              let d := drainStderrTail s1.stderrQueue
              (RequestOutcome.processExited rc d.1,
                deregister { s1 with stderrQueue := d.2 } reqId)
          | none =>
              (RequestOutcome.timeout (timeoutMessage method reqId),
                deregister s1 reqId)

end Smoke

namespace Bridge

/-- An MCP tool descriptor as returned by `session.list_tools()`: `name`,
optional `description`, and `inputSchema` (the schema kept opaque). -/
structure McpToolInfo where
  name : String
  description : Option String
  inputSchema : String
deriving DecidableEq

/-- An Anthropic-format tool spec, the output shape of
`_mcp_schema_to_anthropic` (`src/eval/mcp_client.py` lines 15-24). -/
structure AnthropicToolSpec where
  name : String
  description : String
  input_schema : String
deriving DecidableEq

/-- `_mcp_schema_to_anthropic`: preserve `name`, replace a missing (or empty,
via Python `or`) description with `""`, and rename `inputSchema` to
`input_schema`. -/
def mcp_schema_to_anthropic (t : McpToolInfo) : AnthropicToolSpec :=
  { name := t.name
    description := t.description.getD ""
    input_schema := t.inputSchema }

/-- The adaptation performed by `MCPClient.list_tools` (lines 58-66): map the
conversion over the fetched catalog, in order. -/
def list_tools (catalog : List McpToolInfo) : List AnthropicToolSpec :=
  catalog.map mcp_schema_to_anthropic

/-- Resolution of a later call issued by name against the catalog: the first
descriptor whose `name` matches, which is the correlation the server applies
when `tools/call` arrives with that name. -/
def dispatchTarget (catalog : List McpToolInfo) (n : String) :
    Option McpToolInfo :=
  catalog.find? (fun t => t.name == n)

/-- One content item of an MCP `tools/call` result as `MCPClient.call_tool`
distinguishes them: items with a `text` attribute, and everything else (seen
only through `str(block)`). -/
inductive ContentItem
  | text (s : String)
  | other (stringified : String)
deriving DecidableEq

/-- The raw `tools/call` result: content items plus the result's own
`isError` flag. -/
structure CallToolResult where
  content : List ContentItem
  isError : Bool
deriving DecidableEq

/-- The per-item flattening of `call_tool`: a text item passes through
unchanged; a non-text item is stringified. -/
def flattenItem : ContentItem → String
  | ContentItem.text s => s
  | ContentItem.other s => s

/-- `MCPClient.call_tool`'s normalization (`src/eval/mcp_client.py` lines
72-79): accumulate the flattened parts one by one, then join them with
newlines. The returned value is a bare string. -/
def call_tool_text (r : CallToolResult) : String :=
  String.intercalate "\n"
    (r.content.foldl (fun acc b => acc ++ [flattenItem b]) [])

/-- The spec's normalized `ToolCallResult` (`spec.md` section 3): flattened
text plus the result's own error flag. This definition follows the spec's
words, for comparison against `call_tool_text` above. -/
structure ToolCallResultSpec where
  text : String
  isError : Bool
deriving DecidableEq

/-- Normalization as the spec describes it: flatten the content items and
carry over the result's `isError` flag. -/
def normalizeSpec (r : CallToolResult) : ToolCallResultSpec :=
  { text := String.intercalate "\n" (r.content.map flattenItem)
    isError := r.isError }

end Bridge

namespace EvalConv

/-- One `tool_use` content block of an Anthropic response: call id, tool
name, and the argument mapping (kept serialized). -/
structure ToolUseBlock where
  id : String
  name : String
  input : String
deriving DecidableEq

/-- One content block of an Anthropic model response: a text block (which has
a `text` attribute) or a `tool_use` block (`b.type == "tool_use"`). -/
inductive ContentBlock
  | text (s : String)
  | toolUse (b : ToolUseBlock)
deriving DecidableEq

/-- The slice of an Anthropic `messages.create` response that
`run_mcp_conversation` reads: stop reason, content blocks, usage counters,
and the wall clock the driver observes around the call (supplied by the
environment alongside the response). -/
structure ModelResponse where
  stop_reason : String
  content : List ContentBlock
  input_tokens : Nat
  output_tokens : Nat
  elapsed : Nat
deriving DecidableEq

/-- A `tool_result` dictionary appended to the transcript after dispatch.
The success path writes no `is_error` key, modelled as `false`. -/
structure ToolResultBlock where
  tool_use_id : String
  content : String
  is_error : Bool
deriving DecidableEq

/-- One transcript message as the loop builds them: the seeded / synthetic
user text, an assistant message preserving the response's content blocks, or
the user-role message carrying the turn's tool results. -/
inductive ChatMessage
  | user (text : String)
  | assistant (content : List ContentBlock)
  | toolResults (results : List ToolResultBlock)
deriving DecidableEq

/-- `TurnMetrics` from `src/eval/metrics.py` lines 9-17: this variant records
no per-turn tool names. -/
structure TurnMetrics where
  turn : Nat
  input_tokens : Nat
  output_tokens : Nat
  tool_calls : Nat
  wall_clock_s : Nat
deriving DecidableEq

/-- `TaskMetrics` from `src/eval/metrics.py` lines 20-39. -/
structure TaskMetrics where
  task_id : String
  condition : String
  run : Nat
  turns : List TurnMetrics
  total_input_tokens : Nat
  total_output_tokens : Nat
  total_tool_calls : Nat
  total_wall_clock_s : Nat
  final_answer : String
  correct : Option Bool
deriving DecidableEq

/-- `TaskMetrics.finalize` (`src/eval/metrics.py` lines 34-39): roll the four
per-turn fields up into totals. No tool-name aggregation exists in this
variant. -/
def TaskMetrics.finalize (m : TaskMetrics) : TaskMetrics :=
  { m with
    total_input_tokens := (m.turns.map TurnMetrics.input_tokens).sum
    total_output_tokens := (m.turns.map TurnMetrics.output_tokens).sum
    total_tool_calls := (m.turns.map TurnMetrics.tool_calls).sum
    total_wall_clock_s := (m.turns.map TurnMetrics.wall_clock_s).sum }

/-- The Anthropic client as the loop sees it: one call takes the
tools-supplied flag and the transcript, and either returns a response or
raises (authentication, rate limit, malformed request — these propagate). -/
def Backend : Type :=
  Bool → List ChatMessage → Except String ModelResponse

/-- `MCPClient.call_tool` as the loop sees it: name and arguments in, either
the flattened text out or a raised exception (timeout, `RpcError`, transport
failure — the MCP SDK surfaces protocol-level error objects by raising). -/
def ToolOracle : Type :=
  String → String → Except String String

/-- `[b for b in response.content if b.type == "tool_use"]` (line 46). -/
def toolUseBlocks (content : List ContentBlock) : List ToolUseBlock :=
  content.filterMap fun b =>
    match b with
    | ContentBlock.toolUse t => some t
    | ContentBlock.text _ => none

/-- `"\n".join(b.text for b in response.content if hasattr(b, "text"))`
(lines 67-68 and 115-116). -/
def joinTextParts (content : List ContentBlock) : String :=
  String.intercalate "\n"
    (content.filterMap fun b =>
      match b with
      | ContentBlock.text s => some s
      | ContentBlock.toolUse _ => none)

/-- The body of the dispatch loop (`src/eval/conversation.py` lines 75-91):
forward the call through the client; on success append a plain `tool_result`,
on any exception append a `tool_result` flagged `is_error` with the short
diagnostic string, never re-raising. -/
def dispatchBlock (oracle : ToolOracle) (b : ToolUseBlock) : ToolResultBlock :=
  match oracle b.name b.input with
  | Except.ok t => { tool_use_id := b.id, content := t, is_error := false }
  | Except.error _ =>
      { tool_use_id := b.id
        content := "Error: tool " ++ b.name ++ " failed"
        is_error := true }

/-- The whole dispatch loop: one result per requested call, in order. -/
def dispatchToolCalls (oracle : ToolOracle) (blocks : List ToolUseBlock) :
    List ToolResultBlock :=
  blocks.map (dispatchBlock oracle)

/-- The synthetic user instruction appended when the budget is exhausted
(lines 96-99). -/
def finalPrompt : ChatMessage :=
  ChatMessage.user
    ("You have reached the maximum number of turns. " ++
      "Please provide your final answer now.")

/-- One model call as the driver made it: whether tools were supplied, the
transcript passed to the call, and the response that came back. -/
structure CallRecord where
  withTools : Bool
  transcript : List ChatMessage
  response : ModelResponse
deriving DecidableEq

/-- What one `run_mcp_conversation` invocation produces: the returned final
answer, the turn metrics appended to the supplied `task_metrics.turns` list,
and the log of model calls it made. -/
structure ConvResult where
  answer : String
  turns : List TurnMetrics
  callLog : List CallRecord
deriving DecidableEq

/-- The turn loop of `run_mcp_conversation` (`src/eval/conversation.py` lines
34-116), fused with the forced final call: `remaining` counts loop turns
still allowed and `turnIdx` is the next turn index (the caller keeps
`turnIdx + remaining = maxTurns`). When the budget is exhausted, the
synthetic user instruction is appended, one tools-withheld call is made, its
turn is recorded with index `maxTurns` and zero tool calls, and its text is
returned regardless of content. -/
def convLoop (backend : Backend) (oracle : ToolOracle) (maxTurns : Nat) :
    Nat → Nat → List ChatMessage → List TurnMetrics → List CallRecord →
      Except String ConvResult
  | _, 0, messages, turns, log =>
      let messages1 := messages ++ [finalPrompt]
      match backend false messages1 with
      | Except.error e => Except.error e
      | Except.ok resp =>
          Except.ok
            { answer := joinTextParts resp.content
              turns := turns ++
                [⟨maxTurns, resp.input_tokens, resp.output_tokens, 0,
                  resp.elapsed⟩]
              callLog := log ++ [⟨false, messages1, resp⟩] }
  | turnIdx, remaining + 1, messages, turns, log =>
      match backend true messages with
      | Except.error e => Except.error e
      | Except.ok resp =>
          let tus := toolUseBlocks resp.content
          let turns1 := turns ++
            [⟨turnIdx, resp.input_tokens, resp.output_tokens, tus.length,
              resp.elapsed⟩]
          let log1 := log ++ [⟨true, messages, resp⟩]
          if resp.stop_reason ≠ "tool_use" then
            Except.ok
              { answer := joinTextParts resp.content
                turns := turns1
                callLog := log1 }
          else
            convLoop backend oracle maxTurns (turnIdx + 1) remaining
              (messages ++
                [ChatMessage.assistant resp.content,
                  ChatMessage.toolResults (dispatchToolCalls oracle tus)])
              turns1 log1

/-- `run_mcp_conversation` (`src/eval/conversation.py`): seed the transcript
with the user message, run up to `max_turns` tool-use turns, then force one
final tool-free call. `initialTurns` is the state of the supplied
`task_metrics.turns` list at entry (fresh, hence `[]`, at every call site). -/
def run_mcp_conversation (backend : Backend) (oracle : ToolOracle)
    (user_message : String) (max_turns : Nat)
    (initialTurns : List TurnMetrics) : Except String ConvResult :=
  convLoop backend oracle max_turns 0 max_turns
    [ChatMessage.user user_message] initialTurns []

end EvalConv

namespace GemConv

/-- One function call attached to a Gemini response: name and the argument
mapping (kept serialized). -/
structure FunctionCall where
  name : String
  args : String
deriving DecidableEq

/-- The payload of `types.Part.from_function_response`: the dispatch loop
writes either `{"result": text}` on success or `{"error": message}` when the
tool call raised. -/
inductive FunctionResponseBody
  | result (text : String)
  | error (message : String)
deriving DecidableEq

/-- One Gemini content part as the loop builds or reads them. -/
inductive Part
  | text (s : String)
  | functionCall (fc : FunctionCall)
  | functionResponse (name : String) (body : FunctionResponseBody)
deriving DecidableEq

/-- A role-tagged Gemini content entry. -/
structure Content where
  role : String
  parts : List Part
deriving DecidableEq

/-- Usage metadata with the optional token counters the loop reads. -/
structure Usage where
  prompt_token_count : Option Nat
  candidates_token_count : Option Nat
deriving DecidableEq

/-- One response candidate (only its `content` is read). -/
structure Candidate where
  content : Content
deriving DecidableEq

/-- The slice of a Gemini `generate_content` response the loop reads:
candidates, optional usage metadata, the `function_calls` accessor, and the
wall clock observed around the call. -/
structure ModelResponse where
  candidates : List Candidate
  usage_metadata : Option Usage
  function_calls : List FunctionCall
  elapsed : Nat
deriving DecidableEq

/-- `(usage.prompt_token_count or 0) if usage else 0` (line 58). -/
def promptTokens (r : ModelResponse) : Nat :=
  match r.usage_metadata with
  | none => 0
  | some u => u.prompt_token_count.getD 0

/-- `(usage.candidates_token_count or 0) if usage else 0` (line 59). -/
def candidateTokens (r : ModelResponse) : Nat :=
  match r.usage_metadata with
  | none => 0
  | some u => u.candidates_token_count.getD 0

/-- Final-text extraction (lines 86-91 and 153-158): walk the candidates and
their parts, collecting `part.text` whenever it is truthy (present and
non-empty), joined with newlines. -/
def extractText (r : ModelResponse) : String :=
  String.intercalate "\n"
    ((r.candidates.map fun c =>
        c.content.parts.filterMap fun p =>
          match p with
          | Part.text s => if s = "" then none else some s
          | _ => none)).flatten

/-- `TurnMetrics` from `src/evalGemini/metrics.py` lines 9-17: this variant
additionally records the ordered tool names called in the turn. -/
structure TurnMetrics where
  turn : Nat
  input_tokens : Nat
  output_tokens : Nat
  tool_calls : Nat
  wall_clock_s : Nat
  tools_called : List String
deriving DecidableEq

/-- Python dict lookup `d.get(k, 0)` over the insertion-ordered association
list modelling `tool_usage`. -/
def dictGet (d : List (String × Nat)) (k : String) : Nat :=
  match d.find? (fun p => p.1 == k) with
  | some p => p.2
  | none => 0

/-- Python dict assignment `d[k] = v`: update in place when the key exists,
append otherwise (keys keep first-insertion order). -/
def dictSet (d : List (String × Nat)) (k : String) (v : Nat) :
    List (String × Nat) :=
  match d with
  | [] => [(k, v)]
  | p :: rest => if p.1 == k then (k, v) :: rest else p :: dictSet rest k v

/-- `TaskMetrics` from `src/evalGemini/metrics.py` lines 20-47. -/
structure TaskMetrics where
  task_id : String
  condition : String
  run : Nat
  turns : List TurnMetrics
  total_input_tokens : Nat
  total_output_tokens : Nat
  total_tool_calls : Nat
  total_wall_clock_s : Nat
  final_answer : String
  correct : Option Bool
  tool_usage : List (String × Nat)
  error_traceback : Option String
deriving DecidableEq

/-- The nested aggregation loop of `finalize` (lines 42-47): reset
`tool_usage` to empty, then for each turn and each tool name called in it,
`tool_usage[name] = tool_usage.get(name, 0) + 1`. -/
def aggregateUsage (turns : List TurnMetrics) : List (String × Nat) :=
  turns.foldl
    (fun d t =>
      t.tools_called.foldl (fun d2 nm => dictSet d2 nm (dictGet d2 nm + 1)) d)
    []

/-- `TaskMetrics.finalize` (`src/evalGemini/metrics.py` lines 37-47): sum the
four per-turn fields into totals and aggregate the per-tool-name frequency
across turns. -/
def TaskMetrics.finalize (m : TaskMetrics) : TaskMetrics :=
  { m with
    total_input_tokens := (m.turns.map TurnMetrics.input_tokens).sum
    total_output_tokens := (m.turns.map TurnMetrics.output_tokens).sum
    total_tool_calls := (m.turns.map TurnMetrics.tool_calls).sum
    total_wall_clock_s := (m.turns.map TurnMetrics.wall_clock_s).sum
    tool_usage := aggregateUsage m.turns }

/-- The Gemini client as the loop sees it: tools-supplied flag and transcript
in, a response out or a raised failure (which propagates). -/
def Backend : Type :=
  Bool → List Content → Except String ModelResponse

/-- The (Gemini-side) MCP client's `call_tool` as the loop sees it. -/
def ToolOracle : Type :=
  String → String → Except String String

/-- The dispatch-loop body (`src/evalGemini/conversation.py` lines 99-116):
on success a `function_response` part carrying `{"result": text}`, on any
exception a `function_response` part carrying `{"error": diagnostic}`, never
re-raising. -/
def dispatchCall (oracle : ToolOracle) (fc : FunctionCall) : Part :=
  match oracle fc.name fc.args with
  | Except.ok t => Part.functionResponse fc.name (FunctionResponseBody.result t)
  | Except.error _ =>
      Part.functionResponse fc.name
        (FunctionResponseBody.error ("Tool " ++ fc.name ++ " failed"))

/-- The whole dispatch loop: one function-response part per call, in order. -/
def dispatchCalls (oracle : ToolOracle) (fcs : List FunctionCall) :
    List Part :=
  fcs.map (dispatchCall oracle)

/-- The synthetic user instruction appended on budget exhaustion (lines
122-129). -/
def finalPrompt : Content :=
  { role := "user"
    parts := [Part.text
      ("You have reached the maximum number of turns. " ++
        "Please provide your final answer now.")] }

/-- `if response.candidates: contents.append(response.candidates[0].content)`
(lines 94-95). -/
def appendCandidate (contents : List Content) (r : ModelResponse) :
    List Content :=
  match r.candidates with
  | [] => contents
  | c :: _ => contents ++ [c.content]

/-- One model call as the driver made it. -/
structure CallRecord where
  withTools : Bool
  transcript : List Content
  response : ModelResponse
deriving DecidableEq

/-- What one Gemini `run_mcp_conversation` invocation produces. -/
structure ConvResult where
  answer : String
  turns : List TurnMetrics
  callLog : List CallRecord
deriving DecidableEq

/-- The turn loop of the Gemini `run_mcp_conversation`
(`src/evalGemini/conversation.py` lines 47-158), fused with the forced final
call, with the same budget bookkeeping as the Anthropic variant: the turn
recorded for the forced call has index `maxTurns`, zero tool calls, and an
empty `tools_called` list. -/
def convLoop (backend : Backend) (oracle : ToolOracle) (maxTurns : Nat) :
    Nat → Nat → List Content → List TurnMetrics → List CallRecord →
      Except String ConvResult
  | _, 0, contents, turns, log =>
      let contents1 := contents ++ [finalPrompt]
      match backend false contents1 with
      | Except.error e => Except.error e
      | Except.ok resp =>
          Except.ok
            { answer := extractText resp
              turns := turns ++
                [⟨maxTurns, promptTokens resp, candidateTokens resp, 0,
                  resp.elapsed, []⟩]
              callLog := log ++ [⟨false, contents1, resp⟩] }
  | turnIdx, remaining + 1, contents, turns, log =>
      match backend true contents with
      | Except.error e => Except.error e
      | Except.ok resp =>
          let fcs := resp.function_calls
          let turns1 := turns ++
            [⟨turnIdx, promptTokens resp, candidateTokens resp, fcs.length,
              resp.elapsed, fcs.map FunctionCall.name⟩]
          let log1 := log ++ [⟨true, contents, resp⟩]
          if fcs = [] then
            Except.ok
              { answer := extractText resp
                turns := turns1
                callLog := log1 }
          else
            convLoop backend oracle maxTurns (turnIdx + 1) remaining
              (appendCandidate contents resp ++
                [{ role := "tool", parts := dispatchCalls oracle fcs }])
              turns1 log1

/-- The Gemini `run_mcp_conversation`: seed the contents with the user
message, run up to `max_turns` tool-use turns, then force one final tool-free
call. -/
def run_mcp_conversation (backend : Backend) (oracle : ToolOracle)
    (user_message : String) (max_turns : Nat)
    (initialTurns : List TurnMetrics) : Except String ConvResult :=
  convLoop backend oracle max_turns 0 max_turns
    [{ role := "user", parts := [Part.text user_message] }] initialTurns []

end GemConv

namespace Fixtures

/-- An Anthropic-shape backend that answers immediately with text and never
requests tools. -/
def plainBackendE : EvalConv.Backend :=
  fun _ _ =>
    Except.ok ⟨"end_turn", [EvalConv.ContentBlock.text "hi"], 1, 1, 1⟩

/-- An Anthropic-shape backend that requests one `navigate-url` call whenever
tools are supplied and returns plain text on the forced final call. -/
def toolBackendE : EvalConv.Backend :=
  fun withTools _ =>
    if withTools then
      Except.ok ⟨"tool_use",
        [EvalConv.ContentBlock.toolUse ⟨"c1", "navigate-url", "a"⟩], 1, 2, 3⟩
    else
      Except.ok ⟨"end_turn", [EvalConv.ContentBlock.text "done"], 4, 5, 6⟩

/-- An Anthropic-shape backend that requests a tool call whenever tools are
supplied and whose forced final response carries no text blocks at all. -/
def emptyFinalBackendE : EvalConv.Backend :=
  fun withTools _ =>
    if withTools then
      Except.ok ⟨"tool_use",
        [EvalConv.ContentBlock.toolUse ⟨"c1", "navigate-url", "a"⟩], 1, 2, 3⟩
    else
      Except.ok ⟨"end_turn", [], 4, 5, 6⟩

/-- An Anthropic-shape backend requesting a tool named `alpha` on every
tools-supplied turn. -/
def alphaBackendE : EvalConv.Backend :=
  fun withTools _ =>
    if withTools then
      Except.ok ⟨"tool_use",
        [EvalConv.ContentBlock.toolUse ⟨"c1", "alpha", "a"⟩], 1, 2, 3⟩
    else
      Except.ok ⟨"end_turn", [EvalConv.ContentBlock.text "done"], 4, 5, 6⟩

/-- The same backend as `alphaBackendE` except the requested tool is named
`beta`. -/
def betaBackendE : EvalConv.Backend :=
  fun withTools _ =>
    if withTools then
      Except.ok ⟨"tool_use",
        [EvalConv.ContentBlock.toolUse ⟨"c1", "beta", "a"⟩], 1, 2, 3⟩
    else
      Except.ok ⟨"end_turn", [EvalConv.ContentBlock.text "done"], 4, 5, 6⟩

/-- A Gemini-shape backend that answers immediately with text. -/
def plainBackendG : GemConv.Backend :=
  fun _ _ =>
    Except.ok
      ⟨[⟨⟨"model", [GemConv.Part.text "hi"]⟩⟩], some ⟨some 1, some 1⟩, [], 1⟩

/-- A Gemini-shape backend that requests one `create-session` call whenever
tools are supplied and returns plain text on the forced final call. -/
def toolBackendG : GemConv.Backend :=
  fun withTools _ =>
    if withTools then
      Except.ok
        ⟨[⟨⟨"model",
            [GemConv.Part.functionCall ⟨"create-session", "a"⟩]⟩⟩],
          some ⟨some 1, some 2⟩, [⟨"create-session", "a"⟩], 3⟩
    else
      Except.ok
        ⟨[⟨⟨"model", [GemConv.Part.text "done"]⟩⟩],
          some ⟨some 4, some 5⟩, [], 6⟩

/-- A tool oracle that always succeeds. -/
def okOracle : EvalConv.ToolOracle := fun _ _ => Except.ok "page loaded"

/-- A tool oracle that always raises. -/
def failOracle : EvalConv.ToolOracle := fun _ _ => Except.error "timeout"

/-- A Gemini-side tool oracle that always succeeds. -/
def okOracleG : GemConv.ToolOracle := fun _ _ => Except.ok "page loaded"

/-- A Gemini-side tool oracle that always raises. -/
def failOracleG : GemConv.ToolOracle := fun _ _ => Except.error "timeout"

end Fixtures

namespace Bridge

/-- Folding with snoc builds the same list as `map`. -/
lemma foldl_snoc_eq_map (content : List ContentItem) (acc : List String) :
    content.foldl (fun a b => a ++ [flattenItem b]) acc =
      acc ++ content.map flattenItem := by
  induction content generalizing acc with
  | nil => simp
  | cons x xs ih => simp [List.foldl_cons, ih]

/-- If the names in the catalog are distinct, looking up the i-th name finds
the i-th descriptor. -/
lemma find_name_of_nodup (catalog : List McpToolInfo)
    (hnd : (catalog.map McpToolInfo.name).Nodup) (i : Nat)
    (h : i < catalog.length) :
    dispatchTarget catalog (catalog.get ⟨i, h⟩).name =
      some (catalog.get ⟨i, h⟩) := by
  induction catalog generalizing i with
  | nil => exact absurd h (by simp)
  | cons x xs ih =>
      cases i with
      | zero => simp [dispatchTarget, List.find?]
      | succ j =>
          have hj : j < xs.length := Nat.lt_of_succ_lt_succ h
          have hx : x.name ∉ xs.map McpToolInfo.name := by
            simpa using (List.nodup_cons.mp hnd).1
          have hmem : (xs.get ⟨j, hj⟩).name ∈ xs.map McpToolInfo.name :=
            List.mem_map_of_mem McpToolInfo.name (xs.get_mem j hj)
          have hne : (x.name == (xs.get ⟨j, hj⟩).name) = false :=
            beq_eq_false_iff_ne.mpr fun he => hx (he ▸ hmem)
          have hstep : dispatchTarget (x :: xs) (xs.get ⟨j, hj⟩).name =
              dispatchTarget xs (xs.get ⟨j, hj⟩).name :=
            List.find?_cons_of_neg _ (by
              simpa [List.get_eq_getElem] using beq_eq_false_iff_ne.mp hne)
          exact hstep.trans (ih (List.nodup_cons.mp hnd).2 j hj)

end Bridge

/-- C3: on every exit path of `Smoke.request` — successful result,
protocol-level error, timeout, or observed process exit — the pending-request
entry registered for the call's id is removed from the correlation table
before the call returns or raises, so the table retains no leaked entry: the
table after the call equals the table before it, and in particular the id
allocated by this call is not in it. -/
theorem c3_request_always_deregisters (s : Smoke.ClientState) (method : String)
    (w : Smoke.WaitOutcome) (hfresh : s.nextId ∉ s.table) :
    (Smoke.request s method w).2.table = s.table ∧
      s.nextId ∉ (Smoke.request s method w).2.table := by
  obtain ⟨n, table, poll, q⟩ := s
  have herase : (table ++ [n]).erase n = table := by
    rw [List.erase_append_right _ hfresh]; simp
  have key : (Smoke.request ⟨n, table, poll, q⟩ method w).2.table = table := by
    cases poll with
    | some rc => rfl
    | none =>
      cases w with
      | delivered msg =>
        cases hm : msg.error with
        | some e => simp [Smoke.request, hm, Smoke.deregister, herase]
        | none => simp [Smoke.request, hm, Smoke.deregister, herase]
      | timedOut pl =>
        cases pl with
        | some rc => simp [Smoke.request, Smoke.deregister, herase]
        | none => simp [Smoke.request, Smoke.deregister, herase]
  exact ⟨key, by rw [key]; exact hfresh⟩

/-- Witness for C3 at a concrete state and wait outcome. -/
theorem c3_request_always_deregisters_witness :
    (Smoke.request ⟨4, [1, 2], none, []⟩ "tools/list"
        (Smoke.WaitOutcome.delivered ⟨none, some "r"⟩)).2.table = [1, 2] ∧
      4 ∉ (Smoke.request ⟨4, [1, 2], none, []⟩ "tools/list"
        (Smoke.WaitOutcome.delivered ⟨none, some "r"⟩)).2.table :=
  c3_request_always_deregisters ⟨4, [1, 2], none, []⟩ "tools/list"
    (Smoke.WaitOutcome.delivered ⟨none, some "r"⟩) (by decide)

/-- C4 counterexample: a request whose wait elapses with no response does not
always fail with a `TimeoutError` — when the second `_ensure_running` check
observes that the process has exited, the call fails with the process-exited
`RuntimeError` instead. Concretely, from a fresh client with one captured
stderr line, a timed-out wait with exit code 1 yields `processExited`. -/
theorem c4_timeout_branch_counterexample :
    (Smoke.request ⟨1, [], none, ["boom"]⟩ "tools/list"
        (Smoke.WaitOutcome.timedOut (some 1))).1 =
      Smoke.RequestOutcome.processExited 1 ["boom"] ∧
    (Smoke.request ⟨1, [], none, ["boom"]⟩ "tools/list"
        (Smoke.WaitOutcome.timedOut (some 1))).1 ≠
      Smoke.RequestOutcome.timeout (Smoke.timeoutMessage "tools/list" 1) :=
  ⟨rfl, by decide⟩

/-- C4 (amended): for a call whose entry check sees a live process, a response
carrying a protocol-level error object fails with `RpcError` carrying that
object verbatim; a response with no error object returns the result payload;
and a wait that elapses with no response, when the process has still not been
observed to exit, fails with a `TimeoutError` whose message names the method
and the request id. -/
theorem c4_request_outcomes (s : Smoke.ClientState) (method : String)
    (hrun : s.pollAtEntry = none) :
    (∀ msg e, msg.error = some e →
        (Smoke.request s method (Smoke.WaitOutcome.delivered msg)).1 =
          Smoke.RequestOutcome.rpcError e) ∧
    (∀ msg, msg.error = none →
        (Smoke.request s method (Smoke.WaitOutcome.delivered msg)).1 =
          Smoke.RequestOutcome.ok msg.result) ∧
    ((Smoke.request s method (Smoke.WaitOutcome.timedOut none)).1 =
        Smoke.RequestOutcome.timeout (Smoke.timeoutMessage method s.nextId) ∧
      (∃ pre post, Smoke.timeoutMessage method s.nextId = pre ++ method ++ post) ∧
      (∃ pre post,
        Smoke.timeoutMessage method s.nextId =
          pre ++ toString s.nextId ++ post)) := by
  refine ⟨fun msg e hm => ?_, fun msg hm => ?_, ?_, ?_, ?_⟩
  · simp [Smoke.request, hrun, hm]
  · simp [Smoke.request, hrun, hm]
  · simp [Smoke.request, hrun]
  · exact ⟨"Timed out waiting for response to ",
      " (id=" ++ toString s.nextId ++ ")",
      by simp [Smoke.timeoutMessage, String.append_assoc]⟩
  · exact ⟨"Timed out waiting for response to " ++ method ++ " (id=", ")",
      by simp [Smoke.timeoutMessage, String.append_assoc]⟩

/-- Witness for C4 (amended) at concrete inputs, one per branch. -/
theorem c4_request_outcomes_witness :
    (Smoke.request ⟨3, [], none, []⟩ "tools/list"
        (Smoke.WaitOutcome.delivered ⟨some ⟨5, "bad"⟩, none⟩)).1 =
      Smoke.RequestOutcome.rpcError ⟨5, "bad"⟩ ∧
    (Smoke.request ⟨3, [], none, []⟩ "tools/list"
        (Smoke.WaitOutcome.delivered ⟨none, some "payload"⟩)).1 =
      Smoke.RequestOutcome.ok (some "payload") ∧
    (Smoke.request ⟨3, [], none, []⟩ "tools/list"
        (Smoke.WaitOutcome.timedOut none)).1 =
      Smoke.RequestOutcome.timeout (Smoke.timeoutMessage "tools/list" 3) :=
  ⟨(c4_request_outcomes ⟨3, [], none, []⟩ "tools/list" rfl).1 _ _ rfl,
    (c4_request_outcomes ⟨3, [], none, []⟩ "tools/list" rfl).2.1 _ rfl,
    (c4_request_outcomes ⟨3, [], none, []⟩ "tools/list" rfl).2.2.1⟩

/-- C5 (code bug): when the process has exited during a request's wait, the
request does fail with the process-exited error rather than hanging, but the
drained diagnostic lines are the FIRST at most 50 lines still queued — the
queue is popped front-first — not the LAST 50 lines captured so far, contrary
to the intent documented by the message text `Stderr tail`. With 51 captured
lines the reported lines differ from the last 50. -/
theorem c5_stderr_drain_is_head_not_tail :
    (Smoke.request
        ⟨5, [], none, (List.range 51).map (fun n => "line" ++ toString n)⟩
        "tools/call" (Smoke.WaitOutcome.timedOut (some 1))).1 =
      Smoke.RequestOutcome.processExited 1
        (((List.range 51).map (fun n => "line" ++ toString n)).take 50) ∧
    ((List.range 51).map (fun n => "line" ++ toString n)).take 50 ≠
      ((List.range 51).map (fun n => "line" ++ toString n)).drop 1 :=
  ⟨rfl, by decide⟩

/-- C6: the reader loop skips empty lines, skips (never fatally) lines that
fail to parse as JSON, likewise skips notifications, drops parsed responses
whose id is not in the correlation table, still delivers a response for a
registered id when any amount of non-protocol noise precedes it, and in
particular a non-JSON diagnostic line followed by a valid response for id 7
still completes the request for id 7. -/
theorem c6_reader_skips_noise_and_delivers :
    (∀ table rest, Smoke.readStdout table (Smoke.StdoutLine.blank :: rest) =
        Smoke.readStdout table rest) ∧
    (∀ table t rest,
        Smoke.readStdout table (Smoke.StdoutLine.malformed t :: rest) =
        Smoke.readStdout table rest) ∧
    (∀ table p rest,
        Smoke.readStdout table (Smoke.StdoutLine.notification p :: rest) =
        Smoke.readStdout table rest) ∧
    (∀ table i m rest, i ∉ table →
        Smoke.readStdout table (Smoke.StdoutLine.response i m :: rest) =
        Smoke.readStdout table rest) ∧
    (∀ table noise i m, (∀ l ∈ noise, l.isNoise = true) → i ∈ table →
        Smoke.readStdout table (noise ++ [Smoke.StdoutLine.response i m]) =
          [(i, m)]) ∧
    Smoke.readStdout [7]
        [Smoke.StdoutLine.malformed "diagnostic",
          Smoke.StdoutLine.response 7 ⟨none, some "ok"⟩] =
      [(7, (⟨none, some "ok"⟩ : Smoke.RespMsg))] := by
  refine ⟨fun table rest => rfl, fun table t rest => rfl, fun table p rest => rfl,
    fun table i m rest hmem => by simp [Smoke.readStdout, hmem], ?_, by decide⟩
  intro table noise i m hnoise hmem
  induction noise with
  | nil => simp [Smoke.readStdout, hmem]
  | cons l rest ih =>
      have hrest : ∀ x ∈ rest, x.isNoise = true := fun x hx =>
        hnoise x (List.mem_cons_of_mem l hx)
      have hl : l.isNoise = true := hnoise l (List.mem_cons_self l rest)
      cases l with
      | blank => simpa [Smoke.readStdout] using ih hrest
      | malformed t => simpa [Smoke.readStdout] using ih hrest
      | notification p => simpa [Smoke.readStdout] using ih hrest
      | nonIntId p => simpa [Smoke.readStdout] using ih hrest
      | response j msg => simp [Smoke.StdoutLine.isNoise] at hl

/-- Witness for C6: the unknown-id and noise-interleaving branches at
concrete inputs. -/
theorem c6_reader_witness :
    Smoke.readStdout [7]
        [Smoke.StdoutLine.response 9 ⟨none, none⟩, Smoke.StdoutLine.blank] =
      Smoke.readStdout [7] [Smoke.StdoutLine.blank] ∧
    Smoke.readStdout [7]
        [Smoke.StdoutLine.malformed "x", Smoke.StdoutLine.blank,
          Smoke.StdoutLine.response 7 ⟨none, some "v"⟩] =
      [(7, (⟨none, some "v"⟩ : Smoke.RespMsg))] :=
  ⟨c6_reader_skips_noise_and_delivers.2.2.2.1 [7] 9 ⟨none, none⟩
      [Smoke.StdoutLine.blank] (by decide),
    c6_reader_skips_noise_and_delivers.2.2.2.2.1 [7]
      [Smoke.StdoutLine.malformed "x", Smoke.StdoutLine.blank] 7 ⟨none, some "v"⟩
      (by decide) (by decide)⟩

/-- C7: the adaptation of the tool catalog to the model's tool-spec format is
a pure mapping that preserves the catalog's length and order, preserves each
descriptor's name exactly, and renames only the schema field (`inputSchema`
to `input_schema`); consequently, when the catalog's names are distinct (they
are the correlation keys), a call later issued under `catalog[i].name`
resolves to exactly `catalog[i]`. -/
theorem c7_adaptation_preserves_names_and_order
    (catalog : List Bridge.McpToolInfo) :
    (Bridge.list_tools catalog).length = catalog.length ∧
    (∀ i (h : i < catalog.length) (h2 : i < (Bridge.list_tools catalog).length),
      ((Bridge.list_tools catalog).get ⟨i, h2⟩).name =
          (catalog.get ⟨i, h⟩).name ∧
        ((Bridge.list_tools catalog).get ⟨i, h2⟩).input_schema =
          (catalog.get ⟨i, h⟩).inputSchema ∧
        ((Bridge.list_tools catalog).get ⟨i, h2⟩).description =
          ((catalog.get ⟨i, h⟩).description).getD "") ∧
    ((catalog.map Bridge.McpToolInfo.name).Nodup →
      ∀ i (h : i < catalog.length)
        (h2 : i < (Bridge.list_tools catalog).length),
        Bridge.dispatchTarget catalog
            ((Bridge.list_tools catalog).get ⟨i, h2⟩).name =
          some (catalog.get ⟨i, h⟩)) := by
  have hitem : ∀ i (h : i < catalog.length)
      (h2 : i < (Bridge.list_tools catalog).length),
      (Bridge.list_tools catalog).get ⟨i, h2⟩ =
        Bridge.mcp_schema_to_anthropic (catalog.get ⟨i, h⟩) := by
    intro i h h2
    simp [Bridge.list_tools]
  refine ⟨by simp [Bridge.list_tools], fun i h h2 => ?_, fun hnd i h h2 => ?_⟩
  · rw [hitem i h h2]
    exact ⟨rfl, rfl, rfl⟩
  · rw [hitem i h h2]
    exact Bridge.find_name_of_nodup catalog hnd i h

/-- Witness for C7 at a concrete two-descriptor catalog. -/
theorem c7_adaptation_witness :
    (Bridge.list_tools
        [⟨"navigate-url", some "go", "schemaA"⟩,
          ⟨"create-session", none, "schemaB"⟩]).length = 2 ∧
    ((Bridge.list_tools
        [⟨"navigate-url", some "go", "schemaA"⟩,
          ⟨"create-session", none, "schemaB"⟩]).get
        ⟨1, by decide⟩).name = "create-session" ∧
    Bridge.dispatchTarget
        [⟨"navigate-url", some "go", "schemaA"⟩,
          ⟨"create-session", none, "schemaB"⟩]
        ((Bridge.list_tools
          [⟨"navigate-url", some "go", "schemaA"⟩,
            ⟨"create-session", none, "schemaB"⟩]).get ⟨1, by decide⟩).name =
      some ⟨"create-session", none, "schemaB"⟩ := by
  have h := c7_adaptation_preserves_names_and_order
    [⟨"navigate-url", some "go", "schemaA"⟩, ⟨"create-session", none, "schemaB"⟩]
  exact ⟨h.1, (h.2.1 1 (by decide) (by decide)).1,
    h.2.2 (by decide) 1 (by decide) (by decide)⟩

/-- C8 counterexample: the normalization of `MCPClient.call_tool` does not
carry over the result's own `isError` flag — two server results that differ
only in `isError` normalize to the same bare string, while the spec's
normalized `ToolCallResult` for them differs in its error flag. -/
theorem c8_iserror_dropped_counterexample :
    Bridge.call_tool_text ⟨[Bridge.ContentItem.text "boom"], true⟩ =
      Bridge.call_tool_text ⟨[Bridge.ContentItem.text "boom"], false⟩ ∧
    (Bridge.normalizeSpec ⟨[Bridge.ContentItem.text "boom"], true⟩).isError ≠
      (Bridge.normalizeSpec ⟨[Bridge.ContentItem.text "boom"], false⟩).isError :=
  ⟨rfl, by decide⟩

/-- C8 (amended): the normalized result is produced by flattening the
heterogeneous list of content items — items carrying text pass through
unchanged, non-text items are stringified — joined with newlines, but the
result's own `isError` flag is discarded rather than carried over: the
normalization returns a bare string that does not depend on it. -/
theorem c8_flattening_without_error_flag :
    (∀ r : Bridge.CallToolResult,
      Bridge.call_tool_text r =
        String.intercalate "\n" (r.content.map Bridge.flattenItem)) ∧
    (∀ s, Bridge.flattenItem (Bridge.ContentItem.text s) = s) ∧
    (∀ s, Bridge.flattenItem (Bridge.ContentItem.other s) = s) ∧
    (∀ content e1 e2,
      Bridge.call_tool_text ⟨content, e1⟩ =
        Bridge.call_tool_text ⟨content, e2⟩) := by
  refine ⟨fun r => ?_, fun s => rfl, fun s => rfl, fun content e1 e2 => rfl⟩
  simp [Bridge.call_tool_text, Bridge.foldl_snoc_eq_map]

namespace EvalConv

/-- With a backend that never raises, the loop always returns a result, for
every tool oracle — tool-dispatch failures never escape. -/
lemma convLoop_total (backend : Backend) (oracle : ToolOracle) (maxTurns : Nat)
    (hB : ∀ f msgs, ∃ resp, backend f msgs = Except.ok resp) :
    ∀ remaining turnIdx messages turns log,
      ∃ r, convLoop backend oracle maxTurns turnIdx remaining messages turns
        log = Except.ok r := by
  intro remaining
  induction remaining with
  | zero =>
      intro turnIdx messages turns log
      obtain ⟨resp, hresp⟩ := hB false (messages ++ [finalPrompt])
      refine ⟨{ answer := joinTextParts resp.content
                turns := turns ++
                  [⟨maxTurns, resp.input_tokens, resp.output_tokens, 0,
                    resp.elapsed⟩]
                callLog := log ++ [⟨false, messages ++ [finalPrompt], resp⟩] },
        ?_⟩
      simp [convLoop, hresp]
  | succ n ih =>
      intro turnIdx messages turns log
      obtain ⟨resp, hresp⟩ := hB true messages
      by_cases hstop : resp.stop_reason = "tool_use"
      · obtain ⟨r, hr⟩ := ih (turnIdx + 1)
          (messages ++
            [ChatMessage.assistant resp.content,
              ChatMessage.toolResults
                (dispatchToolCalls oracle (toolUseBlocks resp.content))])
          (turns ++
            [⟨turnIdx, resp.input_tokens, resp.output_tokens,
              (toolUseBlocks resp.content).length, resp.elapsed⟩])
          (log ++ [⟨true, messages, resp⟩])
        exact ⟨r, by simp [convLoop, hresp, hstop, hr]⟩
      · refine ⟨{ answer := joinTextParts resp.content
                  turns := turns ++
                    [⟨turnIdx, resp.input_tokens, resp.output_tokens,
                      (toolUseBlocks resp.content).length, resp.elapsed⟩]
                  callLog := log ++ [⟨true, messages, resp⟩] }, ?_⟩
        simp [convLoop, hresp, hstop]

/-- With a backend that always requests tool use on tool-supplied calls and
never raises, the loop consumes its whole budget and ends with the forced
tool-free final call, whose text becomes the answer. -/
lemma convLoop_forced (backend : Backend) (oracle : ToolOracle)
    (maxTurns : Nat)
    (hTools : ∀ msgs, ∃ resp, backend true msgs = Except.ok resp ∧
      resp.stop_reason = "tool_use")
    (hFinal : ∀ msgs, ∃ resp, backend false msgs = Except.ok resp) :
    ∀ remaining turnIdx messages turns log,
      ∃ r msgsF respF,
        convLoop backend oracle maxTurns turnIdx remaining messages turns
          log = Except.ok r ∧
        backend false (msgsF ++ [finalPrompt]) = Except.ok respF ∧
        r.callLog.map CallRecord.withTools =
          log.map CallRecord.withTools ++
            (List.replicate remaining true ++ [false]) ∧
        r.callLog.getLast? = some ⟨false, msgsF ++ [finalPrompt], respF⟩ ∧
        r.answer = joinTextParts respF.content := by
  intro remaining
  induction remaining with
  | zero =>
      intro turnIdx messages turns log
      obtain ⟨respF, hresp⟩ := hFinal (messages ++ [finalPrompt])
      refine ⟨{ answer := joinTextParts respF.content
                turns := turns ++
                  [⟨maxTurns, respF.input_tokens, respF.output_tokens, 0,
                    respF.elapsed⟩]
                callLog := log ++ [⟨false, messages ++ [finalPrompt], respF⟩] },
        messages, respF, ?_, hresp, ?_, ?_, rfl⟩
      · simp [convLoop, hresp]
      · simp
      · simp [List.getLast?_concat]
  | succ n ih =>
      intro turnIdx messages turns log
      obtain ⟨resp, hresp, hstop⟩ := hTools messages
      obtain ⟨r, msgsF, respF, hr, hbF, hflags, hlast, hans⟩ :=
        ih (turnIdx + 1)
          (messages ++
            [ChatMessage.assistant resp.content,
              ChatMessage.toolResults
                (dispatchToolCalls oracle (toolUseBlocks resp.content))])
          (turns ++
            [⟨turnIdx, resp.input_tokens, resp.output_tokens,
              (toolUseBlocks resp.content).length, resp.elapsed⟩])
          (log ++ [⟨true, messages, resp⟩])
      refine ⟨r, msgsF, respF, ?_, hbF, ?_, hlast, hans⟩
      · simpa [convLoop, hresp, hstop] using hr
      · rw [hflags]
        simp [List.replicate_succ, List.append_assoc]

/-- Turn-index bookkeeping of the loop: appended turns carry consecutive
indices continuing from `turnIdx`, at most `remaining + 1` turns are
appended, at least one is, and when the whole budget is consumed the last
appended turn is the forced one: index `maxTurns` and zero tool calls. -/
lemma convLoop_turns (backend : Backend) (oracle : ToolOracle)
    (maxTurns : Nat) :
    ∀ remaining turnIdx messages turns log r,
      turnIdx + remaining = maxTurns →
      convLoop backend oracle maxTurns turnIdx remaining messages turns log =
        Except.ok r →
      ∃ k, 1 ≤ k ∧ k ≤ remaining + 1 ∧
        r.turns.map TurnMetrics.turn =
          turns.map TurnMetrics.turn ++ List.range' turnIdx k ∧
        (k = remaining + 1 →
          ∃ t, r.turns.getLast? = some t ∧ t.turn = maxTurns ∧
            t.tool_calls = 0) := by
  intro remaining
  induction remaining with
  | zero =>
      intro turnIdx messages turns log r hidx hok
      match hresp : backend false (messages ++ [finalPrompt]) with
      | Except.error e => simp [convLoop, hresp] at hok
      | Except.ok resp =>
          simp only [convLoop, hresp] at hok
          obtain rfl := (Except.ok.injEq _ _).mp hok
          refine ⟨1, le_refl 1, by omega, ?_, fun _ => ?_⟩
          · simp [List.range'_one]
            omega
          · exact ⟨⟨maxTurns, resp.input_tokens, resp.output_tokens, 0,
              resp.elapsed⟩, by simp [List.getLast?_concat], rfl, rfl⟩
  | succ n ih =>
      intro turnIdx messages turns log r hidx hok
      match hresp : backend true messages with
      | Except.error e => simp [convLoop, hresp] at hok
      | Except.ok resp =>
          by_cases hstop : resp.stop_reason = "tool_use"
          · simp only [convLoop, hresp, hstop, ne_eq, not_true_eq_false,
              if_false] at hok
            obtain ⟨k, hk1, hk2, hmap, hlastk⟩ :=
              ih (turnIdx + 1) _ _ _ r (by omega) hok
            refine ⟨k + 1, by omega, by omega, ?_, fun hke => ?_⟩
            · rw [hmap]
              simp [List.range'_succ, List.append_assoc]
            · exact hlastk (by omega)
          · simp only [convLoop, hresp, hstop, ne_eq, not_false_eq_true,
              if_true] at hok
            obtain rfl := (Except.ok.injEq _ _).mp hok
            refine ⟨1, le_refl 1, by omega, ?_, fun hke => by omega⟩
            simp [List.range'_one]

end EvalConv

namespace GemConv

/-- Pointwise relation between a recorded turn and the model call it
measures: token counters and wall clock come from that call's response; tool
counts and the ordered tool names come from its `function_calls` when tools
were supplied, and are zero / empty for the forced final call. -/
def turnOfCall (t : TurnMetrics) (c : CallRecord) : Prop :=
  t.input_tokens = promptTokens c.response ∧
  t.output_tokens = candidateTokens c.response ∧
  t.wall_clock_s = c.response.elapsed ∧
  t.tool_calls =
    (if c.withTools then c.response.function_calls.length else 0) ∧
  t.tools_called =
    (if c.withTools then c.response.function_calls.map FunctionCall.name
      else [])

/-- With a backend that never raises, the Gemini loop always returns a
result, for every tool oracle. -/
lemma gemLoop_total (backend : Backend) (oracle : ToolOracle) (maxTurns : Nat)
    (hB : ∀ f msgs, ∃ resp, backend f msgs = Except.ok resp) :
    ∀ remaining turnIdx contents turns log,
      ∃ r, convLoop backend oracle maxTurns turnIdx remaining contents turns
        log = Except.ok r := by
  intro remaining
  induction remaining with
  | zero =>
      intro turnIdx contents turns log
      obtain ⟨resp, hresp⟩ := hB false (contents ++ [finalPrompt])
      refine ⟨{ answer := extractText resp
                turns := turns ++
                  [⟨maxTurns, promptTokens resp, candidateTokens resp, 0,
                    resp.elapsed, []⟩]
                callLog := log ++ [⟨false, contents ++ [finalPrompt], resp⟩] },
        ?_⟩
      simp [convLoop, hresp]
  | succ n ih =>
      intro turnIdx contents turns log
      obtain ⟨resp, hresp⟩ := hB true contents
      by_cases hfc : resp.function_calls = []
      · refine ⟨{ answer := extractText resp
                  turns := turns ++
                    [⟨turnIdx, promptTokens resp, candidateTokens resp,
                      resp.function_calls.length, resp.elapsed,
                      resp.function_calls.map FunctionCall.name⟩]
                  callLog := log ++ [⟨true, contents, resp⟩] }, ?_⟩
        simp [convLoop, hresp, hfc]
      · obtain ⟨r, hr⟩ := ih (turnIdx + 1)
          (appendCandidate contents resp ++
            [{ role := "tool",
               parts := dispatchCalls oracle resp.function_calls }])
          (turns ++
            [⟨turnIdx, promptTokens resp, candidateTokens resp,
              resp.function_calls.length, resp.elapsed,
              resp.function_calls.map FunctionCall.name⟩])
          (log ++ [⟨true, contents, resp⟩])
        exact ⟨r, by simp [convLoop, hresp, hfc, hr]⟩

/-- With a backend that always requests at least one function call on
tool-supplied calls and never raises, the Gemini loop consumes its whole
budget and ends with the forced tool-free final call. -/
lemma gemLoop_forced (backend : Backend) (oracle : ToolOracle)
    (maxTurns : Nat)
    (hTools : ∀ msgs, ∃ resp, backend true msgs = Except.ok resp ∧
      resp.function_calls ≠ [])
    (hFinal : ∀ msgs, ∃ resp, backend false msgs = Except.ok resp) :
    ∀ remaining turnIdx contents turns log,
      ∃ r msgsF respF,
        convLoop backend oracle maxTurns turnIdx remaining contents turns
          log = Except.ok r ∧
        backend false (msgsF ++ [finalPrompt]) = Except.ok respF ∧
        r.callLog.map CallRecord.withTools =
          log.map CallRecord.withTools ++
            (List.replicate remaining true ++ [false]) ∧
        r.callLog.getLast? = some ⟨false, msgsF ++ [finalPrompt], respF⟩ ∧
        r.answer = extractText respF := by
  intro remaining
  induction remaining with
  | zero =>
      intro turnIdx contents turns log
      obtain ⟨respF, hresp⟩ := hFinal (contents ++ [finalPrompt])
      refine ⟨{ answer := extractText respF
                turns := turns ++
                  [⟨maxTurns, promptTokens respF, candidateTokens respF, 0,
                    respF.elapsed, []⟩]
                callLog := log ++ [⟨false, contents ++ [finalPrompt], respF⟩] },
        contents, respF, ?_, hresp, ?_, ?_, rfl⟩
      · simp [convLoop, hresp]
      · simp
      · simp [List.getLast?_concat]
  | succ n ih =>
      intro turnIdx contents turns log
      obtain ⟨resp, hresp, hfc⟩ := hTools contents
      obtain ⟨r, msgsF, respF, hr, hbF, hflags, hlast, hans⟩ :=
        ih (turnIdx + 1)
          (appendCandidate contents resp ++
            [{ role := "tool",
               parts := dispatchCalls oracle resp.function_calls }])
          (turns ++
            [⟨turnIdx, promptTokens resp, candidateTokens resp,
              resp.function_calls.length, resp.elapsed,
              resp.function_calls.map FunctionCall.name⟩])
          (log ++ [⟨true, contents, resp⟩])
      refine ⟨r, msgsF, respF, ?_, hbF, ?_, hlast, hans⟩
      · simpa [convLoop, hresp, hfc] using hr
      · rw [hflags]
        simp [List.replicate_succ, List.append_assoc]

/-- Turn-index bookkeeping of the Gemini loop, as for the Anthropic one. -/
lemma gemLoop_turns (backend : Backend) (oracle : ToolOracle)
    (maxTurns : Nat) :
    ∀ remaining turnIdx contents turns log r,
      turnIdx + remaining = maxTurns →
      convLoop backend oracle maxTurns turnIdx remaining contents turns log =
        Except.ok r →
      ∃ k, 1 ≤ k ∧ k ≤ remaining + 1 ∧
        r.turns.map TurnMetrics.turn =
          turns.map TurnMetrics.turn ++ List.range' turnIdx k ∧
        (k = remaining + 1 →
          ∃ t, r.turns.getLast? = some t ∧ t.turn = maxTurns ∧
            t.tool_calls = 0) := by
  intro remaining
  induction remaining with
  | zero =>
      intro turnIdx contents turns log r hidx hok
      match hresp : backend false (contents ++ [finalPrompt]) with
      | Except.error e => simp [convLoop, hresp] at hok
      | Except.ok resp =>
          simp only [convLoop, hresp] at hok
          obtain rfl := (Except.ok.injEq _ _).mp hok
          refine ⟨1, le_refl 1, by omega, ?_, fun _ => ?_⟩
          · simp [List.range'_one]
            omega
          · exact ⟨⟨maxTurns, promptTokens resp, candidateTokens resp, 0,
              resp.elapsed, []⟩, by simp [List.getLast?_concat], rfl, rfl⟩
  | succ n ih =>
      intro turnIdx contents turns log r hidx hok
      match hresp : backend true contents with
      | Except.error e => simp [convLoop, hresp] at hok
      | Except.ok resp =>
          by_cases hfc : resp.function_calls = []
          · simp only [convLoop, hresp, hfc, if_true] at hok
            obtain rfl := (Except.ok.injEq _ _).mp hok
            refine ⟨1, le_refl 1, by omega, ?_, fun hke => by omega⟩
            simp [List.range'_one, hfc]
          · simp only [convLoop, hresp, hfc, if_false] at hok
            obtain ⟨k, hk1, hk2, hmap, hlastk⟩ :=
              ih (turnIdx + 1) _ _ _ r (by omega) hok
            refine ⟨k + 1, by omega, by omega, ?_, fun hke => ?_⟩
            · rw [hmap]
              simp [List.range'_succ, List.append_assoc]
            · exact hlastk (by omega)

/-- Every turn the loop appends is paired, in order, with the model call it
measures, and the pairing satisfies `turnOfCall`. -/
lemma convLoop_records (backend : Backend) (oracle : ToolOracle)
    (maxTurns : Nat) :
    ∀ remaining turnIdx contents turns log r,
      convLoop backend oracle maxTurns turnIdx remaining contents turns log =
        Except.ok r →
      ∃ newTurns newLog,
        r.turns = turns ++ newTurns ∧
        r.callLog = log ++ newLog ∧
        newTurns.length = newLog.length ∧
        ∀ i (h1 : i < newTurns.length) (h2 : i < newLog.length),
          turnOfCall (newTurns.get ⟨i, h1⟩) (newLog.get ⟨i, h2⟩) := by
  intro remaining
  induction remaining with
  | zero =>
      intro turnIdx contents turns log r hok
      match hresp : backend false (contents ++ [finalPrompt]) with
      | Except.error e => simp [convLoop, hresp] at hok
      | Except.ok resp =>
          simp only [convLoop, hresp] at hok
          obtain rfl := (Except.ok.injEq _ _).mp hok
          refine ⟨[⟨maxTurns, promptTokens resp, candidateTokens resp, 0,
              resp.elapsed, []⟩],
            [⟨false, contents ++ [finalPrompt], resp⟩], rfl, rfl, rfl, ?_⟩
          intro i h1 h2
          obtain rfl : i = 0 := Nat.lt_one_iff.mp (by simpa using h1)
          exact ⟨rfl, rfl, rfl, rfl, rfl⟩
  | succ n ih =>
      intro turnIdx contents turns log r hok
      match hresp : backend true contents with
      | Except.error e => simp [convLoop, hresp] at hok
      | Except.ok resp =>
          by_cases hfc : resp.function_calls = []
          · simp only [convLoop, hresp, hfc, if_true] at hok
            obtain rfl := (Except.ok.injEq _ _).mp hok
            refine ⟨[⟨turnIdx, promptTokens resp, candidateTokens resp,
                resp.function_calls.length, resp.elapsed,
                resp.function_calls.map FunctionCall.name⟩],
              [⟨true, contents, resp⟩], by simp [hfc], rfl, rfl, ?_⟩
            intro i h1 h2
            obtain rfl : i = 0 := Nat.lt_one_iff.mp (by simpa using h1)
            exact ⟨rfl, rfl, rfl, rfl, rfl⟩
          · simp only [convLoop, hresp, hfc, if_false] at hok
            obtain ⟨newTurns, newLog, hT, hL, hlen, hrel⟩ :=
              ih (turnIdx + 1) _ _ _ r hok
            refine ⟨⟨turnIdx, promptTokens resp, candidateTokens resp,
                resp.function_calls.length, resp.elapsed,
                resp.function_calls.map FunctionCall.name⟩ :: newTurns,
              ⟨true, contents, resp⟩ :: newLog, ?_, ?_, by simp [hlen], ?_⟩
            · rw [hT]; simp
            · rw [hL]; simp
            · intro i h1 h2
              cases i with
              | zero => exact ⟨rfl, rfl, rfl, rfl, rfl⟩
              | succ j =>
                  exact hrel j (Nat.lt_of_succ_lt_succ h1)
                    (Nat.lt_of_succ_lt_succ h2)

end GemConv

namespace GemConv

/-- Reading back the key just written returns the written value. -/
lemma dictGet_dictSet_self (d : List (String × Nat)) (k : String) (v : Nat) :
    dictGet (dictSet d k v) k = v := by
  induction d with
  | nil => simp [dictGet, dictSet, List.find?]
  | cons p rest ih =>
      by_cases h : p.1 == k
      · simp [dictGet, dictSet, h, List.find?]
      · simp only [dictSet, h, if_false]
        simpa [dictGet, List.find?, h] using ih

/-- Writing one key leaves every other key's value unchanged. -/
lemma dictGet_dictSet_ne (d : List (String × Nat)) (k k2 : String) (v : Nat)
    (h : k ≠ k2) : dictGet (dictSet d k v) k2 = dictGet d k2 := by
  have hbk : (k == k2) = false := beq_eq_false_iff_ne.mpr h
  induction d with
  | nil => simp [dictGet, dictSet, List.find?, hbk]
  | cons p rest ih =>
      by_cases hp : p.1 == k
      · have hp2 : (p.1 == k2) = false := by
          have : p.1 = k := by simpa using hp
          simpa [this] using hbk
        simp [dictGet, dictSet, hp, hp2, List.find?, hbk]
      · by_cases hq : p.1 == k2
        · simp [dictGet, dictSet, hp, hq, List.find?]
        · simp only [dictSet, hp, if_false]
          simpa [dictGet, List.find?, hq] using ih

/-- The increment fold over a list of names adds each name's occurrence
count to the dictionary. -/
lemma foldIncr_count (names : List String) :
    ∀ (d : List (String × Nat)) (k : String),
      dictGet
          (names.foldl (fun d2 nm => dictSet d2 nm (dictGet d2 nm + 1)) d) k =
        dictGet d k + names.count k := by
  induction names with
  | nil => intro d k; simp
  | cons nm rest ih =>
      intro d k
      rw [List.foldl_cons, ih]
      by_cases h : nm = k
      · subst h
        rw [dictGet_dictSet_self]
        simp [List.count_cons]
        omega
      · rw [dictGet_dictSet_ne d nm k _ h]
        have hnmk : (nm == k) = false := beq_eq_false_iff_ne.mpr h
        simp only [List.count_cons, hnmk]
        norm_num

/-- `aggregateUsage` maps every tool name to its number of occurrences across
the turns' `tools_called` lists. -/
lemma aggregateUsage_count (turns : List TurnMetrics) (k : String) :
    dictGet (aggregateUsage turns) k =
      ((turns.map TurnMetrics.tools_called).flatten).count k := by
  suffices h : ∀ d : List (String × Nat),
      dictGet
          (turns.foldl
            (fun d t =>
              t.tools_called.foldl
                (fun d2 nm => dictSet d2 nm (dictGet d2 nm + 1)) d)
            d) k =
        dictGet d k + ((turns.map TurnMetrics.tools_called).flatten).count k by
    simpa [aggregateUsage, dictGet, List.find?] using h []
  induction turns with
  | nil => intro d; simp
  | cons t rest ih =>
      intro d
      rw [List.foldl_cons, ih, foldIncr_count]
      simp [List.count_append]
      omega

end GemConv

/-- C1: tool-dispatch failure is local, never fatal, in both drivers. A call
whose client invocation raises (timeout, RpcError, transport failure — the
SDK surfaces protocol-level error objects by raising) yields a tool result
flagged as an error with a short diagnostic string; a successful call yields
an unflagged result; dispatch handles every requested call; a tool-use turn
appends the model's response and the dispatched results to the transcript and
continues the loop; and, for any backend that itself never raises, the
conversation returns a result for every tool oracle, however often it fails —
no exception raised inside tool dispatch ever propagates out of the
conversation loop. -/
theorem c1_tool_failure_localized :
    (∀ (oracle : EvalConv.ToolOracle) (b : EvalConv.ToolUseBlock) e,
      oracle b.name b.input = Except.error e →
      EvalConv.dispatchBlock oracle b =
        ⟨b.id, "Error: tool " ++ b.name ++ " failed", true⟩) ∧
    (∀ (oracle : EvalConv.ToolOracle) (b : EvalConv.ToolUseBlock) t,
      oracle b.name b.input = Except.ok t →
      EvalConv.dispatchBlock oracle b = ⟨b.id, t, false⟩) ∧
    (∀ (oracle : EvalConv.ToolOracle) blocks,
      (EvalConv.dispatchToolCalls oracle blocks).length = blocks.length) ∧
    (∀ (backend : EvalConv.Backend) (oracle : EvalConv.ToolOracle)
        (maxTurns turnIdx remaining : Nat) messages turns log resp,
      backend true messages = Except.ok resp →
      resp.stop_reason = "tool_use" →
      EvalConv.convLoop backend oracle maxTurns turnIdx (remaining + 1)
          messages turns log =
        EvalConv.convLoop backend oracle maxTurns (turnIdx + 1) remaining
          (messages ++
            [EvalConv.ChatMessage.assistant resp.content,
              EvalConv.ChatMessage.toolResults
                (EvalConv.dispatchToolCalls oracle
                  (EvalConv.toolUseBlocks resp.content))])
          (turns ++
            [⟨turnIdx, resp.input_tokens, resp.output_tokens,
              (EvalConv.toolUseBlocks resp.content).length, resp.elapsed⟩])
          (log ++ [⟨true, messages, resp⟩])) ∧
    (∀ (backend : EvalConv.Backend) (oracle : EvalConv.ToolOracle)
        (u : String) (N : Nat) init,
      (∀ f msgs, ∃ resp, backend f msgs = Except.ok resp) →
      ∃ r, EvalConv.run_mcp_conversation backend oracle u N init =
        Except.ok r) ∧
    (∀ (oracle : GemConv.ToolOracle) (fc : GemConv.FunctionCall) e,
      oracle fc.name fc.args = Except.error e →
      GemConv.dispatchCall oracle fc =
        GemConv.Part.functionResponse fc.name
          (GemConv.FunctionResponseBody.error
            ("Tool " ++ fc.name ++ " failed"))) ∧
    (∀ (oracle : GemConv.ToolOracle) (fc : GemConv.FunctionCall) t,
      oracle fc.name fc.args = Except.ok t →
      GemConv.dispatchCall oracle fc =
        GemConv.Part.functionResponse fc.name
          (GemConv.FunctionResponseBody.result t)) ∧
    (∀ (backend : GemConv.Backend) (oracle : GemConv.ToolOracle)
        (u : String) (N : Nat) init,
      (∀ f msgs, ∃ resp, backend f msgs = Except.ok resp) →
      ∃ r, GemConv.run_mcp_conversation backend oracle u N init =
        Except.ok r) := by
  refine ⟨?_, ?_, ?_, ?_, ?_, ?_, ?_, ?_⟩
  · intro oracle b e he
    simp [EvalConv.dispatchBlock, he]
  · intro oracle b t ht
    simp [EvalConv.dispatchBlock, ht]
  · intro oracle blocks
    simp [EvalConv.dispatchToolCalls]
  · intro backend oracle maxTurns turnIdx remaining messages turns log resp
      hresp hstop
    simp [EvalConv.convLoop, hresp, hstop]
  · intro backend oracle u N init hB
    exact EvalConv.convLoop_total backend oracle N hB N 0
      [EvalConv.ChatMessage.user u] init []
  · intro oracle fc e he
    simp [GemConv.dispatchCall, he]
  · intro oracle fc t ht
    simp [GemConv.dispatchCall, ht]
  · intro backend oracle u N init hB
    exact GemConv.gemLoop_total backend oracle N hB N 0
      [{ role := "user", parts := [GemConv.Part.text u] }] init []

/-- Witness for C1: a failing oracle at concrete calls produces the flagged
results, and both drivers return a result under a backend paired with an
always-failing oracle. -/
theorem c1_tool_failure_localized_witness :
    EvalConv.dispatchBlock Fixtures.failOracle ⟨"id1", "navigate-url", "a"⟩ =
      ⟨"id1", "Error: tool " ++ "navigate-url" ++ " failed", true⟩ ∧
    GemConv.dispatchCall Fixtures.failOracleG ⟨"create-session", "a"⟩ =
      GemConv.Part.functionResponse "create-session"
        (GemConv.FunctionResponseBody.error
          ("Tool " ++ "create-session" ++ " failed")) ∧
    (∃ r, EvalConv.run_mcp_conversation Fixtures.toolBackendE
      Fixtures.failOracle "go" 2 [] = Except.ok r) ∧
    (∃ r, GemConv.run_mcp_conversation Fixtures.toolBackendG
      Fixtures.failOracleG "go" 2 [] = Except.ok r) :=
  ⟨c1_tool_failure_localized.1 Fixtures.failOracle
      ⟨"id1", "navigate-url", "a"⟩ "timeout" rfl,
    c1_tool_failure_localized.2.2.2.2.2.1 Fixtures.failOracleG
      ⟨"create-session", "a"⟩ "timeout" rfl,
    c1_tool_failure_localized.2.2.2.2.1 Fixtures.toolBackendE
      Fixtures.failOracle "go" 2 []
      (fun f msgs => by
        cases f <;> exact ⟨_, rfl⟩),
    c1_tool_failure_localized.2.2.2.2.2.2.2 Fixtures.toolBackendG
      Fixtures.failOracleG "go" 2 []
      (fun f msgs => by
        cases f <;> exact ⟨_, rfl⟩)⟩

/-- C2 counterexample: with turn budget 1 and a backend that requests a tool
call on every tools-supplied turn, the driver performs exactly 2 model calls
and returns the forced final call's text — but that text is EMPTY here,
because the final response carries no text blocks, so the final answer is not
always non-empty as claimed. -/
theorem c2_nonempty_answer_counterexample :
    (EvalConv.run_mcp_conversation Fixtures.emptyFinalBackendE
        Fixtures.okOracle "go" 1 []).map EvalConv.ConvResult.answer =
      Except.ok "" ∧
    (EvalConv.run_mcp_conversation Fixtures.emptyFinalBackendE
        Fixtures.okOracle "go" 1 []).map
        (fun r => r.callLog.length) = Except.ok 2 :=
  ⟨rfl, rfl⟩

/-- C2 (amended): for every turn budget N ≥ 1 and every backend that, with
tools supplied, always returns (without raising) a response requesting at
least one tool call, each driver performs exactly N+1 model calls — N inside
the loop with tools supplied plus one unconditional forced final call with
tools withheld after appending the synthetic user instruction — and
terminates returning the final call's joined text (possibly empty) as the
final answer. -/
theorem c2_turn_budget_forces_final (N : Nat) (hN : 1 ≤ N)
    (backendE : EvalConv.Backend) (oracleE : EvalConv.ToolOracle) (uE : String)
    (hToolsE : ∀ msgs, ∃ resp, backendE true msgs = Except.ok resp ∧
      resp.stop_reason = "tool_use" ∧
      EvalConv.toolUseBlocks resp.content ≠ [])
    (hFinalE : ∀ msgs, ∃ resp, backendE false msgs = Except.ok resp)
    (backendG : GemConv.Backend) (oracleG : GemConv.ToolOracle) (uG : String)
    (hToolsG : ∀ msgs, ∃ resp, backendG true msgs = Except.ok resp ∧
      resp.function_calls ≠ [])
    (hFinalG : ∀ msgs, ∃ resp, backendG false msgs = Except.ok resp) :
    (∃ r msgsF respF,
      EvalConv.run_mcp_conversation backendE oracleE uE N [] = Except.ok r ∧
      r.callLog.length = N + 1 ∧
      r.callLog.map EvalConv.CallRecord.withTools =
        List.replicate N true ++ [false] ∧
      backendE false (msgsF ++ [EvalConv.finalPrompt]) = Except.ok respF ∧
      r.callLog.getLast? =
        some ⟨false, msgsF ++ [EvalConv.finalPrompt], respF⟩ ∧
      r.answer = EvalConv.joinTextParts respF.content) ∧
    (∃ r msgsF respF,
      GemConv.run_mcp_conversation backendG oracleG uG N [] = Except.ok r ∧
      r.callLog.length = N + 1 ∧
      r.callLog.map GemConv.CallRecord.withTools =
        List.replicate N true ++ [false] ∧
      backendG false (msgsF ++ [GemConv.finalPrompt]) = Except.ok respF ∧
      r.callLog.getLast? =
        some ⟨false, msgsF ++ [GemConv.finalPrompt], respF⟩ ∧
      r.answer = GemConv.extractText respF) := by
  constructor
  · obtain ⟨r, msgsF, respF, hok, hbF, hflags, hlast, hans⟩ :=
      EvalConv.convLoop_forced backendE oracleE N
        (fun msgs => (hToolsE msgs).imp fun resp h => ⟨h.1, h.2.1⟩)
        hFinalE N 0 [EvalConv.ChatMessage.user uE] [] []
    refine ⟨r, msgsF, respF, hok, ?_, ?_, hbF, hlast, hans⟩
    · simpa using congrArg List.length hflags
    · simpa using hflags
  · obtain ⟨r, msgsF, respF, hok, hbF, hflags, hlast, hans⟩ :=
      GemConv.gemLoop_forced backendG oracleG N hToolsG hFinalG N 0
        [{ role := "user", parts := [GemConv.Part.text uG] }] [] []
    refine ⟨r, msgsF, respF, hok, ?_, ?_, hbF, hlast, hans⟩
    · simpa using congrArg List.length hflags
    · simpa using hflags

/-- Witness for C2 (amended) at budget 1 with concrete always-tool-calling
backends. -/
theorem c2_turn_budget_forces_final_witness :
    (∃ r msgsF respF,
      EvalConv.run_mcp_conversation Fixtures.toolBackendE Fixtures.okOracle
        "go" 1 [] = Except.ok r ∧
      r.callLog.length = 1 + 1 ∧
      r.callLog.map EvalConv.CallRecord.withTools =
        List.replicate 1 true ++ [false] ∧
      Fixtures.toolBackendE false (msgsF ++ [EvalConv.finalPrompt]) =
        Except.ok respF ∧
      r.callLog.getLast? =
        some ⟨false, msgsF ++ [EvalConv.finalPrompt], respF⟩ ∧
      r.answer = EvalConv.joinTextParts respF.content) ∧
    (∃ r msgsF respF,
      GemConv.run_mcp_conversation Fixtures.toolBackendG Fixtures.okOracleG
        "go" 1 [] = Except.ok r ∧
      r.callLog.length = 1 + 1 ∧
      r.callLog.map GemConv.CallRecord.withTools =
        List.replicate 1 true ++ [false] ∧
      Fixtures.toolBackendG false (msgsF ++ [GemConv.finalPrompt]) =
        Except.ok respF ∧
      r.callLog.getLast? =
        some ⟨false, msgsF ++ [GemConv.finalPrompt], respF⟩ ∧
      r.answer = GemConv.extractText respF) :=
  c2_turn_budget_forces_final 1 (by decide)
    Fixtures.toolBackendE Fixtures.okOracle "go"
    (fun msgs => ⟨_, rfl, rfl, by decide⟩)
    (fun msgs => ⟨_, rfl⟩)
    Fixtures.toolBackendG Fixtures.okOracleG "go"
    (fun msgs => ⟨_, rfl, by decide⟩)
    (fun msgs => ⟨_, rfl⟩)

/-- C10: for every run of either driver with turn budget N ≥ 1 that returns
(starting from the freshly supplied, empty turns list), the recorded turns
number at most N+1, each entry's stored turn index equals its position in the
list, and when the budget was exhausted (N+1 entries) the last appended entry
has turn index exactly N and a tool-call count of 0. -/
theorem c10_turn_index_invariant (N : Nat) (hN : 1 ≤ N)
    (backendE : EvalConv.Backend) (oracleE : EvalConv.ToolOracle) (uE : String)
    (rE : EvalConv.ConvResult)
    (hE : EvalConv.run_mcp_conversation backendE oracleE uE N [] =
      Except.ok rE)
    (backendG : GemConv.Backend) (oracleG : GemConv.ToolOracle) (uG : String)
    (rG : GemConv.ConvResult)
    (hG : GemConv.run_mcp_conversation backendG oracleG uG N [] =
      Except.ok rG) :
    (rE.turns.length ≤ N + 1 ∧
      rE.turns.map EvalConv.TurnMetrics.turn = List.range rE.turns.length ∧
      (rE.turns.length = N + 1 →
        ∃ t, rE.turns.getLast? = some t ∧ t.turn = N ∧ t.tool_calls = 0)) ∧
    (rG.turns.length ≤ N + 1 ∧
      rG.turns.map GemConv.TurnMetrics.turn = List.range rG.turns.length ∧
      (rG.turns.length = N + 1 →
        ∃ t, rG.turns.getLast? = some t ∧ t.turn = N ∧ t.tool_calls = 0)) := by
  constructor
  · obtain ⟨k, hk1, hk2, hmap, hlast⟩ :=
      EvalConv.convLoop_turns backendE oracleE N N 0
        [EvalConv.ChatMessage.user uE] [] [] rE (by omega) hE
    have hlen : rE.turns.length = k := by
      have := congrArg List.length hmap
      simpa using this
    refine ⟨by omega, ?_, fun hexh => hlast (by omega)⟩
    rw [hlen]
    simpa [List.range_eq_range'] using hmap
  · obtain ⟨k, hk1, hk2, hmap, hlast⟩ :=
      GemConv.gemLoop_turns backendG oracleG N N 0
        [{ role := "user", parts := [GemConv.Part.text uG] }] [] [] rG
        (by omega) hG
    have hlen : rG.turns.length = k := by
      have := congrArg List.length hmap
      simpa using this
    refine ⟨by omega, ?_, fun hexh => hlast (by omega)⟩
    rw [hlen]
    simpa [List.range_eq_range'] using hmap

/-- Witness for C10: both drivers at budget 1 with backends that answer
immediately (one recorded turn) and, for the Anthropic driver, a backend that
exhausts the budget (two recorded turns, last one the forced call). -/
theorem c10_turn_index_invariant_witness :
    (∃ rE rG,
      EvalConv.run_mcp_conversation Fixtures.plainBackendE Fixtures.okOracle
        "go" 1 [] = Except.ok rE ∧
      GemConv.run_mcp_conversation Fixtures.plainBackendG Fixtures.okOracleG
        "go" 1 [] = Except.ok rG ∧
      rE.turns.length ≤ 2 ∧
      rE.turns.map EvalConv.TurnMetrics.turn = List.range rE.turns.length ∧
      rG.turns.length ≤ 2 ∧
      rG.turns.map GemConv.TurnMetrics.turn = List.range rG.turns.length) ∧
    (∃ rE2 rG2,
      EvalConv.run_mcp_conversation Fixtures.toolBackendE Fixtures.okOracle
        "go" 1 [] = Except.ok rE2 ∧
      GemConv.run_mcp_conversation Fixtures.toolBackendG Fixtures.okOracleG
        "go" 1 [] = Except.ok rG2 ∧
      (rE2.turns.length = 2 →
        ∃ t, rE2.turns.getLast? = some t ∧ t.turn = 1 ∧ t.tool_calls = 0) ∧
      (rG2.turns.length = 2 →
        ∃ t, rG2.turns.getLast? = some t ∧ t.turn = 1 ∧ t.tool_calls = 0)) := by
  constructor
  · refine ⟨_, _, rfl, rfl, ?_, ?_, ?_, ?_⟩
    · exact (c10_turn_index_invariant 1 (by decide) Fixtures.plainBackendE
        Fixtures.okOracle "go" _ rfl Fixtures.plainBackendG
        Fixtures.okOracleG "go" _ rfl).1.1
    · exact (c10_turn_index_invariant 1 (by decide) Fixtures.plainBackendE
        Fixtures.okOracle "go" _ rfl Fixtures.plainBackendG
        Fixtures.okOracleG "go" _ rfl).1.2.1
    · exact (c10_turn_index_invariant 1 (by decide) Fixtures.plainBackendE
        Fixtures.okOracle "go" _ rfl Fixtures.plainBackendG
        Fixtures.okOracleG "go" _ rfl).2.1
    · exact (c10_turn_index_invariant 1 (by decide) Fixtures.plainBackendE
        Fixtures.okOracle "go" _ rfl Fixtures.plainBackendG
        Fixtures.okOracleG "go" _ rfl).2.2.1
  · refine ⟨_, _, rfl, rfl, ?_, ?_⟩
    · exact (c10_turn_index_invariant 1 (by decide) Fixtures.toolBackendE
        Fixtures.okOracle "go" _ rfl Fixtures.toolBackendG
        Fixtures.okOracleG "go" _ rfl).1.2.2
    · exact (c10_turn_index_invariant 1 (by decide) Fixtures.toolBackendE
        Fixtures.okOracle "go" _ rfl Fixtures.toolBackendG
        Fixtures.okOracleG "go" _ rfl).2.2.2

/-- C9 counterexample: in the Anthropic variant the recorded Turn does not
contain the names of the tool calls requested in that turn — two runs whose
requested tool names differ (`alpha` vs `beta`, visible in the call log)
record IDENTICAL turn lists, so the recorded turns cannot carry the names,
and its finalize performs no per-tool-name aggregation. -/
theorem c9_eval_turns_lack_tool_names_counterexample :
    (EvalConv.run_mcp_conversation Fixtures.alphaBackendE Fixtures.okOracle
        "go" 1 []).map EvalConv.ConvResult.turns =
      (EvalConv.run_mcp_conversation Fixtures.betaBackendE Fixtures.okOracle
        "go" 1 []).map EvalConv.ConvResult.turns ∧
    (EvalConv.run_mcp_conversation Fixtures.alphaBackendE Fixtures.okOracle
        "go" 1 []).map
        (fun r => r.callLog.map fun c =>
          (EvalConv.toolUseBlocks c.response.content).map
            EvalConv.ToolUseBlock.name) = Except.ok [["alpha"], []] ∧
    (EvalConv.run_mcp_conversation Fixtures.betaBackendE Fixtures.okOracle
        "go" 1 []).map
        (fun r => r.callLog.map fun c =>
          (EvalConv.toolUseBlocks c.response.content).map
            EvalConv.ToolUseBlock.name) = Except.ok [["beta"], []] ∧
    ("alpha" : String) ≠ "beta" :=
  ⟨rfl, rfl, rfl, by decide⟩

/-- C9 (amended): in the Gemini implementation every recorded Turn carries
the ordered tool names of that turn's requested calls (empty for the forced
final call), and its finalize sums the per-turn fields into the four totals
and aggregates a per-tool-name frequency count across all turns; the
Anthropic implementation's finalize computes the same four totals but its
Turn records no tool names. -/
theorem c9_metrics_rollup
    (mG : GemConv.TaskMetrics) (mE : EvalConv.TaskMetrics)
    (backendG : GemConv.Backend) (oracleG : GemConv.ToolOracle) (uG : String)
    (N : Nat) (rG : GemConv.ConvResult)
    (hG : GemConv.run_mcp_conversation backendG oracleG uG N [] =
      Except.ok rG) :
    (mG.finalize.total_input_tokens =
        (mG.turns.map GemConv.TurnMetrics.input_tokens).sum ∧
      mG.finalize.total_output_tokens =
        (mG.turns.map GemConv.TurnMetrics.output_tokens).sum ∧
      mG.finalize.total_tool_calls =
        (mG.turns.map GemConv.TurnMetrics.tool_calls).sum ∧
      mG.finalize.total_wall_clock_s =
        (mG.turns.map GemConv.TurnMetrics.wall_clock_s).sum ∧
      ∀ k, GemConv.dictGet mG.finalize.tool_usage k =
        ((mG.turns.map GemConv.TurnMetrics.tools_called).flatten).count k) ∧
    (mE.finalize.total_input_tokens =
        (mE.turns.map EvalConv.TurnMetrics.input_tokens).sum ∧
      mE.finalize.total_output_tokens =
        (mE.turns.map EvalConv.TurnMetrics.output_tokens).sum ∧
      mE.finalize.total_tool_calls =
        (mE.turns.map EvalConv.TurnMetrics.tool_calls).sum ∧
      mE.finalize.total_wall_clock_s =
        (mE.turns.map EvalConv.TurnMetrics.wall_clock_s).sum) ∧
    (∃ newTurns newLog,
      rG.turns = newTurns ∧ rG.callLog = newLog ∧
      newTurns.length = newLog.length ∧
      ∀ i (h1 : i < newTurns.length) (h2 : i < newLog.length),
        (newTurns.get ⟨i, h1⟩).tools_called =
          (if (newLog.get ⟨i, h2⟩).withTools then
            ((newLog.get ⟨i, h2⟩).response.function_calls).map
              GemConv.FunctionCall.name
          else [])) := by
  refine ⟨⟨rfl, rfl, rfl, rfl, fun k => ?_⟩, ⟨rfl, rfl, rfl, rfl⟩, ?_⟩
  · exact GemConv.aggregateUsage_count mG.turns k
  · obtain ⟨newTurns, newLog, hT, hL, hlen, hrel⟩ :=
      GemConv.convLoop_records backendG oracleG N N 0
        [{ role := "user", parts := [GemConv.Part.text uG] }] [] [] rG hG
    exact ⟨newTurns, newLog, by simpa using hT, by simpa using hL, hlen,
      fun i h1 h2 => (hrel i h1 h2).2.2.2.2⟩

/-- Witness for C9 (amended) at concrete metrics and a concrete Gemini run
that exhausts a budget of 1 with one `create-session` call. -/
theorem c9_metrics_rollup_witness :
    ((⟨"t", "c", 0,
        [⟨0, 1, 2, 1, 3, ["create-session"]⟩, ⟨1, 4, 5, 0, 6, []⟩],
        0, 0, 0, 0, "", none, [], none⟩ :
          GemConv.TaskMetrics).finalize.total_input_tokens =
        ([1, 4] : List Nat).sum ∧
      ∀ k, GemConv.dictGet
          (⟨"t", "c", 0,
            [⟨0, 1, 2, 1, 3, ["create-session"]⟩, ⟨1, 4, 5, 0, 6, []⟩],
            0, 0, 0, 0, "", none, [], none⟩ :
              GemConv.TaskMetrics).finalize.tool_usage k =
        (["create-session"] : List String).count k) ∧
    (∃ rG newTurns newLog,
      GemConv.run_mcp_conversation Fixtures.toolBackendG Fixtures.okOracleG
        "go" 1 [] = Except.ok rG ∧
      rG.turns = newTurns ∧ rG.callLog = newLog ∧
      newTurns.length = newLog.length ∧
      ∀ i (h1 : i < newTurns.length) (h2 : i < newLog.length),
        (newTurns.get ⟨i, h1⟩).tools_called =
          (if (newLog.get ⟨i, h2⟩).withTools then
            ((newLog.get ⟨i, h2⟩).response.function_calls).map
              GemConv.FunctionCall.name
          else [])) := by
  have h := c9_metrics_rollup
    ⟨"t", "c", 0,
      [⟨0, 1, 2, 1, 3, ["create-session"]⟩, ⟨1, 4, 5, 0, 6, []⟩],
      0, 0, 0, 0, "", none, [], none⟩
    ⟨"t", "c", 0, [], 0, 0, 0, 0, "", none⟩
    Fixtures.toolBackendG Fixtures.okOracleG "go" 1 _ rfl
  refine ⟨⟨h.1.1, fun k => ?_⟩, ?_⟩
  · simpa using h.1.2.2.2.2 k
  · obtain ⟨newTurns, newLog, hT, hL, hlen, hrel⟩ := h.2.2
    exact ⟨_, newTurns, newLog, rfl, hT, hL, hlen, hrel⟩
